import Mathlib

/-!
Verification of `src/main.js` of the imageSearch add-on.

JavaScript strings are modelled as `List Char`; JavaScript numbers that can
be `NaN` are modelled as `Option Nat` (with `none` playing the role of `NaN`
and of `undefined` where the two behave alike in the comparisons used by the
code); promise rejection / thrown errors are modelled with `Option` /
`Except`.  External primitives (the DNS service, the platform URL parser,
preferences, the filesystem and the network) are oracles passed in as
function arguments.
-/

namespace ImageSearch

/-! ### JS primitives used by the source -/

/-- JS relational comparison `x >= k` where `x` may be `NaN`/`undefined`
(`none`): any comparison with `NaN` is false. -/
def jsGe (x : Option Nat) (k : Nat) : Bool :=
  match x with
  | some n => k ≤ n
  | none => false

/-- JS relational comparison `x <= k` where `x` may be `NaN` (`none`). -/
def jsLe (x : Option Nat) (k : Nat) : Bool :=
  match x with
  | some n => n ≤ k
  | none => false

/-- JS strict equality `x === k` between a possibly-`NaN`/`undefined` value
and a number literal: `NaN === k` and `undefined === k` are false. -/
def jsEq (x : Option Nat) (k : Nat) : Bool :=
  x == some k

/-- `arr[i]` on a JS array: out-of-range access yields `undefined`, which the
comparisons above treat like `NaN` (all false). -/
def nth (l : List (Option Nat)) (i : Nat) : Option Nat :=
  (l.get? i).getD none

/-- `Number(String(arr))` — the implicit coercion a JS array undergoes in a
relational comparison against a number.  `String(arr)` joins the elements
with `','`, so a list of two or more elements never coerces to a number
(`NaN`), `[]` gives `""` hence `0`, and a single element stands for itself
(`[NaN]` gives `"NaN"` hence `NaN`). -/
def arrayNumber (l : List (Option Nat)) : Option Nat :=
  match l with
  | [] => some 0
  | [x] => x
  | _ => none

/-- Value of a non-empty all-digit character run (the only shape the unary
`+` is applied to here, thanks to the dotted-quad regex). -/
def digitsToNat (l : List Char) : Option Nat :=
  if l ≠ [] ∧ l.all Char.isDigit then
    some (l.foldl (fun a c => a * 10 + (c.toNat - 48)) 0)
  else none

/-- JS unary plus on a string: `+"" = 0`, an all-digit run is its value, and
anything non-numeric is `NaN` (`none`). -/
def jsPlus (l : List Char) : Option Nat :=
  if l = [] then some 0 else digitsToNat l

/-! ### `hostToIP` (src/main.js lines 246-252)

`hostToIP(host, flags, recurse = 10)` asks the DNS service for `host`; a
failed lookup rejects; an answer matching the dotted-quad regex resolves;
any other answer is re-resolved while `recurse > 0` (passing `--recurse`),
and rejects with "too much recursion" once the bound is exhausted.  The
resolver oracle maps a name to its answer (`none` = hard lookup failure);
promise rejection is `none`. -/

/-- One octet of the regex `[12]?\d{1,2}`: one or two digits, or three
digits starting with `1` or `2`. -/
def matchesOctet (l : List Char) : Bool :=
  match l with
  | [a] => a.isDigit
  | [a, b] => a.isDigit && b.isDigit
  | [a, b, c] => (a = '1' || a = '2') && b.isDigit && c.isDigit
  | _ => false

/-- The regex `^[12]?\d{1,2}\.[12]?\d{1,2}\.[12]?\d{1,2}\.[12]?\d{1,2}$`
used to recognise a dotted-quad IPv4 answer. -/
def isIPv4String (l : List Char) : Bool :=
  match l.splitOn '.' with
  | [a, b, c, d] => matchesOctet a && matchesOctet b && matchesOctet c && matchesOctet d
  | _ => false

/-- `hostToIP`: resolve, accept a dotted quad, otherwise follow the
CNAME-style indirection while the bound lasts. -/
def hostToIP (resolver : List Char → Option (List Char)) :
    List Char → Nat → Option (List Char)
  | host, recurse =>
    match resolver host with
    | none => none
    | some ip =>
      if isIPv4String ip then some ip
      else
        match recurse with
        | 0 => none
        | r + 1 => hostToIP resolver ip r

/-- `hostToIP` instrumented with the number of DNS resolutions performed
(the number of indirections followed is one less). -/
def hostToIPTrace (resolver : List Char → Option (List Char)) :
    List Char → Nat → Option (List Char) × Nat
  | host, recurse =>
    match resolver host with
    | none => (none, 1)
    | some ip =>
      if isIPv4String ip then (some ip, 1)
      else
        match recurse with
        | 0 => (none, 1)
        | r + 1 =>
          let p := hostToIPTrace resolver ip r
          (p.1, p.2 + 1)

/-! ### `isPublicHost` (src/main.js lines 254-267) -/

/-- Modelled from the spec: `new URL(url).hostname` of the platform URL
parser (not part of this repository), for plain `http(s)://host/path` URLs
— the scheme prefix is stripped and the host runs until a delimiter; any
other input throws, i.e. yields `none`. -/
def urlHostname (url : List Char) : Option (List Char) :=
  if ("http://".toList).isPrefixOf url then
    some ((url.drop 7).takeWhile fun c => !(c = '/' || c = ':' || c = '?' || c = '#' || c = '@'))
  else if ("https://".toList).isPrefixOf url then
    some ((url.drop 8).takeWhile fun c => !(c = '/' || c = ':' || c = '?' || c = '#' || c = '@'))
  else none

/-- The private/loopback/link-local test of `isPublicHost`, verbatim from
the source including the JS coercion of `ipv4 <= 31` (the array, not an
octet, is compared against `31`, which goes through `arrayNumber`). -/
def isPublicIPv4 (ipv4 : List (Option Nat)) : Bool :=
  !( jsEq (nth ipv4 0) 127
   || jsEq (nth ipv4 0) 10
   || (jsEq (nth ipv4 0) 172 && jsGe (nth ipv4 1) 16 && jsLe (arrayNumber ipv4) 31)
   || (jsEq (nth ipv4 0) 192 && jsEq (nth ipv4 1) 168)
   || (jsEq (nth ipv4 0) 169 && jsEq (nth ipv4 1) 254))

/-- `isPublicHost(url)`: extract the hostname, resolve it with depth bound
10, split the answer on `.` and apply unary `+` to each part, then
classify; any failure along the way (the `catch`) returns `false`. -/
def isPublicHost (resolver : List Char → Option (List Char)) (url : List Char) : Bool :=
  match urlHostname url with
  | none => false
  | some name =>
    match hostToIP resolver name 10 with
    | none => false
    | some ip => isPublicIPv4 ((ip.splitOn '.').map jsPlus)

/-! ### Lemmas about `hostToIP` -/

/-- One-step unfolding of `hostToIP`. -/
theorem hostToIP_eq (resolver : List Char → Option (List Char))
    (host : List Char) (recurse : Nat) :
    hostToIP resolver host recurse =
      match resolver host with
      | none => none
      | some ip =>
        if isIPv4String ip then some ip
        else
          match recurse with
          | 0 => none
          | r + 1 => hostToIP resolver ip r :=
  hostToIP.eq_1 resolver host recurse

/-- One-step unfolding of `hostToIPTrace`. -/
theorem hostToIPTrace_eq (resolver : List Char → Option (List Char))
    (host : List Char) (recurse : Nat) :
    hostToIPTrace resolver host recurse =
      match resolver host with
      | none => (none, 1)
      | some ip =>
        if isIPv4String ip then (some ip, 1)
        else
          match recurse with
          | 0 => (none, 1)
          | r + 1 =>
            let p := hostToIPTrace resolver ip r
            (p.1, p.2 + 1) :=
  hostToIPTrace.eq_1 resolver host recurse

/-- The instrumented resolver performs at most `n + 1` DNS resolutions when
started with bound `n`, and computes the same answer as `hostToIP`. -/
theorem hostToIPTrace_spec (resolver : List Char → Option (List Char)) :
    ∀ (n : Nat) (host : List Char),
      (hostToIPTrace resolver host n).2 ≤ n + 1 ∧
      (hostToIPTrace resolver host n).1 = hostToIP resolver host n := by
  intro n
  induction n with
  | zero =>
    intro host
    rw [hostToIPTrace_eq, hostToIP_eq]
    cases resolver host with
    | none => simp
    | some ip => by_cases h : isIPv4String ip <;> simp [h]
  | succ m ih =>
    intro host
    rw [hostToIPTrace_eq, hostToIP_eq]
    cases resolver host with
    | none => simp
    | some ip =>
      by_cases h : isIPv4String ip
      · simp [h]
      · simp only [h, Bool.false_eq_true, if_false]
        refine ⟨?_, (ih ip).2⟩
        have := (ih ip).1
        omega

/-- A successful `hostToIP` answer always matches the dotted-quad regex. -/
theorem hostToIP_success_quad (resolver : List Char → Option (List Char)) :
    ∀ (n : Nat) (host ip : List Char),
      hostToIP resolver host n = some ip → isIPv4String ip = true := by
  intro n
  induction n with
  | zero =>
    intro host ip h
    rw [hostToIP_eq] at h
    cases hr : resolver host with
    | none => rw [hr] at h; exact absurd h (by simp)
    | some a =>
      rw [hr] at h
      by_cases hq : isIPv4String a
      · simp [hq] at h; subst h; exact hq
      · simp [hq] at h
  | succ m ih =>
    intro host ip h
    rw [hostToIP_eq] at h
    cases hr : resolver host with
    | none => rw [hr] at h; exact absurd h (by simp)
    | some a =>
      rw [hr] at h
      by_cases hq : isIPv4String a
      · simp [hq] at h; subst h; exact hq
      · simp [hq] at h; exact ih a ip h

/-- A successful `hostToIP` answer was produced by the resolver oracle. -/
theorem hostToIP_success_answer (resolver : List Char → Option (List Char)) :
    ∀ (n : Nat) (host ip : List Char),
      hostToIP resolver host n = some ip → ∃ h, resolver h = some ip := by
  intro n
  induction n with
  | zero =>
    intro host ip h
    rw [hostToIP_eq] at h
    cases hr : resolver host with
    | none => rw [hr] at h; exact absurd h (by simp)
    | some a =>
      rw [hr] at h
      by_cases hq : isIPv4String a
      · simp [hq] at h; exact ⟨host, h ▸ hr⟩
      · simp [hq] at h
  | succ m ih =>
    intro host ip h
    rw [hostToIP_eq] at h
    cases hr : resolver host with
    | none => rw [hr] at h; exact absurd h (by simp)
    | some a =>
      rw [hr] at h
      by_cases hq : isIPv4String a
      · simp [hq] at h; exact ⟨host, h ▸ hr⟩
      · simp [hq] at h; exact ih a ip h

/-! ### Claim theorems for the Private-Network Guard -/

/-- C1: the claim says `isPublicHost` returns `false` exactly on
127.0.0.0/8, 10.0.0.0/8, 172.16.0.0/12, 192.168.0.0/16 and 169.254.0.0/16.
The code's 172.16.0.0/12 clause compares the whole address array against
`31` (`ipv4 <= 31`), which coerces to `NaN`, so the clause never fires:
at 172.16.0.1 the code answers `true` (public) where the claim demands
`false`.  The claim's two examples do hold. -/
theorem isPublicHost_bug_172_16 :
    isPublicHost (fun h => some h) ("http://172.16.0.1/x".toList) = true ∧
    isPublicHost (fun h => some h) ("http://10.0.0.5/x".toList) = false ∧
    isPublicHost (fun h => some h) ("http://192.0.2.1/x".toList) = true := by
  decide

/-- C2: any failure inside `isPublicHost` — hostname extraction failing on
a malformed URL, or the DNS resolution failing (hard failure or exhausted
recursion bound, both of which surface as `hostToIP` returning `none`) —
makes it return `false` rather than propagate; the function is total. -/
theorem isPublicHost_fails_closed (resolver : List Char → Option (List Char))
    (url : List Char) :
    (urlHostname url = none → isPublicHost resolver url = false) ∧
    (∀ name, urlHostname url = some name → hostToIP resolver name 10 = none →
      isPublicHost resolver url = false) := by
  constructor
  · intro h; simp [isPublicHost, h]
  · intro name h1 h2; simp [isPublicHost, h1, h2]

/-- Witness for C2 at concrete inputs: a URL without a scheme, and a URL
whose hostname suffers a hard DNS failure, both yield `false`. -/
theorem isPublicHost_fails_closed_witness :
    isPublicHost (fun _ => none) ("notaurl".toList) = false ∧
    isPublicHost (fun _ => none) ("http://example.com/x".toList) = false := by
  constructor
  · exact (isPublicHost_fails_closed (fun _ => none) ("notaurl".toList)).1 (by decide)
  · exact (isPublicHost_fails_closed (fun _ => none) ("http://example.com/x".toList)).2
      ("example.com".toList) (by decide) (by decide)

/-- C7: a top-level `hostToIP` call (bound 10) performs at most 11 DNS
resolutions, i.e. follows at most 10 CNAME-style indirections; every
successful answer is a dotted quad; and when every resolver answer is a
non-quad (so the bound is exhausted without reaching an IPv4 address) the
call rejects (`none`).  Totality of the Lean function gives settlement. -/
theorem hostToIP_settles_bounded (resolver : List Char → Option (List Char))
    (host : List Char) :
    (hostToIPTrace resolver host 10).2 ≤ 11 ∧
    (∀ ip, hostToIP resolver host 10 = some ip → isIPv4String ip = true) ∧
    ((∀ h, ∃ a, resolver h = some a ∧ isIPv4String a = false) →
      hostToIP resolver host 10 = none) := by
  refine ⟨(hostToIPTrace_spec resolver 10 host).1,
    fun ip h => hostToIP_success_quad resolver 10 host ip h, fun hall => ?_⟩
  cases hres : hostToIP resolver host 10 with
  | none => rfl
  | some ip =>
    have hquad := hostToIP_success_quad resolver 10 host ip hres
    obtain ⟨h', hh'⟩ := hostToIP_success_answer resolver 10 host ip hres
    obtain ⟨a, ha, hnq⟩ := hall h'
    rw [hh'] at ha
    cases ha
    rw [hquad] at hnq
    cases hnq

/-- Witness for C7: a direct dotted-quad resolution is within the bound and
accepted; a resolver that always answers with the same CNAME makes a
top-level call reject. -/
theorem hostToIP_settles_bounded_witness :
    (hostToIPTrace (fun h => some h) ("a.example".toList) 10).2 ≤ 11 ∧
    isIPv4String ("1.2.3.4".toList) = true ∧
    hostToIP (fun _ => some ("cname.example".toList)) ("a.example".toList) 10 = none := by
  refine ⟨(hostToIP_settles_bounded (fun h => some h) ("a.example".toList)).1,
    (hostToIP_settles_bounded (fun h => some h) ("1.2.3.4".toList)).2.1
      ("1.2.3.4".toList) (by decide),
    (hostToIP_settles_bounded (fun _ => some ("cname.example".toList))
      ("a.example".toList)).2.2 (fun h => ⟨("cname.example".toList), rfl, by decide⟩)⟩

/-! ### `shorten` (src/main.js lines 232-244)

`shorten(string, length)` produces a display label.  The platform `URL`
parser used in the "some other url" branch is an oracle returning the
`protocol`, `origin` and `pathname` components (`none` = the constructor
threw, which the code catches and falls through to the final return). -/

/-- Components of `new URL(string)` used by `shorten`. -/
structure URLParts where
  protocol : List Char
  origin : List Char
  pathname : List Char

/-- A character of the regex class `[\w-]`. -/
def isWordDash (c : Char) : Bool :=
  c.isAlphanum || c = '_' || c = '-'

/-- The regex `^[\w-]{2,30}:\/\//`: a maximal run of `w` word/dash
characters can only be followed by `:` at its end, so the match succeeds
exactly when `2 ≤ w ≤ 30` and `://` follows the run. -/
def isSchemeUrl (s : List Char) : Bool :=
  let w := (s.takeWhile isWordDash).length
  decide (2 ≤ w) && decide (w ≤ 30) && ("://".toList).isPrefixOf (s.drop w)

/-- Match of the regex `^data:[^,;]{0,10}.?` against a string already known
to start with `data:` — greedily up to ten characters outside `{,,;}`, then
optionally one more arbitrary character (`.` does not match a newline). -/
def dataPrefixMatch (s : List Char) : List Char :=
  let body := s.drop 5
  let p := (body.takeWhile fun c => !(c = ',' || c = ';')).take 10
  let rest := body.drop p.length
  ("data:".toList) ++ p ++
    (match rest with
     | [] => []
     | c :: _ => if c = '\n' then [] else [c])

/-- JS `str.slice(-k)` for `k ≥ 1`: the last `min k str.length`
characters. -/
def takeLast (k : Nat) (l : List Char) : List Char :=
  l.drop (l.length - k)

/-- `shorten`, with the JS number argument as an `Int`. -/
def shorten (parseURL : List Char → Option URLParts) (s : List Char) (n : Int) :
    List Char :=
  if n < 7 then []
  else if (s.length : Int) ≤ n then s
  else if n < 10 then s.take 9 ++ ['…']
  else if ("data:".toList).isPrefixOf s then dataPrefixMatch s ++ ['…']
  else if isSchemeUrl s then
    match parseURL s with
    | some u =>
      if (u.origin.length : Int) + (u.pathname.length : Int) ≤ n then
        u.origin ++ u.pathname
      else
        let out :=
          if (u.origin.length : Int) * 2 < n then u.origin ++ ['/']
          else if (u.protocol.length : Int) * 2 < n then u.protocol ++ ['/', '/']
          else []
        out ++ ['…'] ++ takeLast (n - (out.length : Int) - 1).toNat u.pathname
    | none => s.take (n - 2).toNat ++ ['…']
  else s.take (n - 2).toNat ++ ['…']

/-- The regex match of the `data:` branch never exceeds 16 characters. -/
theorem dataPrefixMatch_length_le (s : List Char) :
    (dataPrefixMatch s).length ≤ 16 := by
  unfold dataPrefixMatch
  have hple : (((s.drop 5).takeWhile fun c => !(c = ',' || c = ';')).take 10).length ≤ 10 := by
    rw [List.length_take]
    omega
  have h5 : ("data:".toList).length = 5 := rfl
  cases hr : (s.drop 5).drop (((s.drop 5).takeWhile fun c => !(c = ',' || c = ';')).take 10).length with
  | nil =>
    simp only [hr, List.length_append, h5, List.length_nil]
    omega
  | cons c rest =>
    by_cases hc : c = '\n' <;>
      simp only [hr, hc, if_pos, if_neg, List.length_append, h5, List.length_nil,
        List.length_cons, if_true, if_false, reduceIte] <;>
      omega

/-- JS `slice(-k)` yields at most `k` characters. -/
theorem takeLast_length_le (k : Nat) (l : List Char) :
    (takeLast k l).length ≤ k := by
  simp only [takeLast, List.length_drop]
  omega

/-- Length analysis of every branch of `shorten`: the result never exceeds
`max n 17` characters, and when `n ≥ 10` and the input is not a `data:` URL
it never exceeds `n` characters. -/
theorem shorten_length_le (parseURL : List Char → Option URLParts)
    (s : List Char) (n : Int) :
    ((shorten parseURL s n).length : Int) ≤ max n 17 ∧
    (10 ≤ n → ("data:".toList).isPrefixOf s = false →
      ((shorten parseURL s n).length : Int) ≤ n) := by
  unfold shorten
  split_ifs with h1 h2 h3 h4 h5
  · simp only [List.length_nil]
    constructor
    · exact le_max_of_le_right (by norm_num)
    · intro h _; omega
  · constructor
    · exact le_max_of_le_left h2
    · intro _ _; exact h2
  · have : ((s.take 9 ++ ['…']).length : Int) ≤ 10 := by
      simp only [List.length_append, List.length_take, List.length_cons, List.length_nil]
      push_cast
      omega
    constructor
    · exact le_trans this (le_max_of_le_right (by norm_num))
    · intro h _; omega
  · have : ((dataPrefixMatch s ++ ['…']).length : Int) ≤ 17 := by
      have := dataPrefixMatch_length_le s
      simp only [List.length_append, List.length_cons, List.length_nil]
      push_cast
      omega
    constructor
    · exact le_trans this (le_max_of_le_right (by norm_num))
    · intro _ hd; rw [hd] at h4; cases h4
  · cases hp : parseURL s with
    | some u =>
      by_cases ha : (u.origin.length : Int) + (u.pathname.length : Int) ≤ n
      · simp only [hp, if_pos ha]
        have : ((u.origin ++ u.pathname).length : Int) ≤ n := by
          simp only [List.length_append]; push_cast; omega
        exact ⟨le_trans this (le_max_left _ _), fun _ _ => this⟩
      · simp only [hp, if_neg ha]
        have hbound : ∀ out : List Char, (out.length : Int) + 2 ≤ n →
            (((out ++ ['…'] ++ takeLast (n - (out.length : Int) - 1).toNat u.pathname).length : Int)) ≤ n := by
          intro out hout
          have htl := takeLast_length_le (n - (out.length : Int) - 1).toNat u.pathname
          simp only [List.length_append, List.length_cons, List.length_nil]
          push_cast
          omega
        have h10 : ¬ n < 10 := h3
        by_cases ho : (u.origin.length : Int) * 2 < n
        · simp only [if_pos ho]
          have := hbound (u.origin ++ ['/'])
            (by simp only [List.length_append, List.length_cons, List.length_nil]; push_cast; omega)
          exact ⟨le_trans this (le_max_left _ _), fun _ _ => this⟩
        · by_cases hpr : (u.protocol.length : Int) * 2 < n
          · simp only [if_neg ho, if_pos hpr]
            have := hbound (u.protocol ++ ['/', '/'])
              (by simp only [List.length_append, List.length_cons, List.length_nil]; push_cast; omega)
            exact ⟨le_trans this (le_max_left _ _), fun _ _ => this⟩
          · simp only [if_neg ho, if_neg hpr]
            have := hbound [] (by simp only [List.length_nil]; push_cast; omega)
            simp only [List.nil_append] at this ⊢
            exact ⟨le_trans this (le_max_left _ _), fun _ _ => this⟩
    | none =>
      have : ((s.take (n - 2).toNat ++ ['…']).length : Int) ≤ n := by
        simp only [List.length_append, List.length_take, List.length_cons, List.length_nil]
        push_cast
        omega
      simp only [hp]
      exact ⟨le_trans this (le_max_left _ _), fun _ _ => this⟩
  · have : ((s.take (n - 2).toNat ++ ['…']).length : Int) ≤ n := by
      simp only [List.length_append, List.length_take, List.length_cons, List.length_nil]
      push_cast
      omega
    exact ⟨le_trans this (le_max_left _ _), fun _ _ => this⟩

/-- C5 counterexample: the claimed bound `|shorten s n| ≤ n` fails — at
`s = "abcdefghij"` and `n = 7` the "to short to bother" branch returns the
ten-character `"abcdefghi…"`; and `shorten "ab" 2` returns `""`, not `s`,
so "returns `s` whenever `s.length ≤ n`" also fails for `n < 7`. -/
theorem shorten_claimed_bound_fails :
    ¬ (((shorten (fun _ => none) ("abcdefghij".toList) 7).length : Int) ≤ 7) ∧
    shorten (fun _ => none) ("ab".toList) 2 ≠ "ab".toList := by
  constructor
  · decide
  · decide

/-- C5 (amended): `shorten s n` returns `""` whenever `n < 7`, returns `s`
whenever `n ≥ 7` and `s.length ≤ n`, always returns at most `max n 17`
characters, and returns at most `n` characters whenever `n ≥ 10` and `s` is
not a `data:` URL (the two exceptions to the claimed `≤ n` bound being the
fixed-size truncation used for `7 ≤ n < 10` and the `data:` branch, whose
result can reach 17 characters). -/
theorem shorten_spec (parseURL : List Char → Option URLParts)
    (s : List Char) (n : Int) :
    (n < 7 → shorten parseURL s n = []) ∧
    (7 ≤ n → (s.length : Int) ≤ n → shorten parseURL s n = s) ∧
    ((shorten parseURL s n).length : Int) ≤ max n 17 ∧
    (10 ≤ n → ("data:".toList).isPrefixOf s = false →
      ((shorten parseURL s n).length : Int) ≤ n) := by
  refine ⟨fun h => ?_, fun h7 hlen => ?_, (shorten_length_le parseURL s n).1,
    (shorten_length_le parseURL s n).2⟩
  · unfold shorten
    rw [if_pos h]
  · unfold shorten
    rw [if_neg (by omega), if_pos hlen]

/-- Witness for C5 at concrete inputs: a too-small budget yields `""`, a
fitting string is returned unchanged, and a long non-`data:` string is cut
to within the budget. -/
theorem shorten_spec_witness :
    shorten (fun _ => none) ("abc".toList) 5 = [] ∧
    shorten (fun _ => none) ("abc".toList) 8 = "abc".toList ∧
    ((shorten (fun _ => none) ("0123456789abcdef".toList) 12).length : Int) ≤ 12 := by
  refine ⟨(shorten_spec (fun _ => none) ("abc".toList) 5).1 (by decide),
    (shorten_spec (fun _ => none) ("abc".toList) 8).2.1 (by decide) (by decide),
    (shorten_spec (fun _ => none) ("0123456789abcdef".toList) 12).2.2.2
      (by decide) (by decide)⟩

/-- C6 counterexample: for the plain string `"abcdefghij.png"` with
`n = 10` the final branch of `shorten` keeps the first `n - 2` characters
and appends the ellipsis — `"abcdefgh…"` — so the ellipsis sits at the end
(no mid-truncation) and the trailing `.png` extension is not preserved. -/
theorem shorten_extension_not_preserved :
    shorten (fun _ => none) ("abcdefghij.png".toList) 10 = "abcdefgh…".toList ∧
    (".png".toList).isSuffixOf
      (shorten (fun _ => none) ("abcdefghij.png".toList) 10) = false := by
  constructor
  · decide
  · decide

/-- C6 (amended): for every string `s` that is neither a `data:` URL nor
matches the scheme-URL pattern, with `s.length > n` and `n ≥ 10`, `shorten`
returns the first `n - 2` characters of `s` followed by a single trailing
ellipsis glyph, a string of length exactly `n - 1`; no trailing
file-extension suffix is treated specially. -/
theorem shorten_tail_truncates (parseURL : List Char → Option URLParts)
    (s : List Char) (n : Int)
    (hd : ("data:".toList).isPrefixOf s = false)
    (hs : isSchemeUrl s = false)
    (hn : 10 ≤ n) (hlen : n < (s.length : Int)) :
    shorten parseURL s n = s.take (n - 2).toNat ++ ['…'] ∧
    ((shorten parseURL s n).length : Int) = n - 1 := by
  have heq : shorten parseURL s n = s.take (n - 2).toNat ++ ['…'] := by
    unfold shorten
    rw [if_neg (by omega), if_neg (by omega), if_neg (by omega),
      if_neg (by rw [hd]; decide), if_neg (by rw [hs]; decide)]
  refine ⟨heq, ?_⟩
  rw [heq]
  simp only [List.length_append, List.length_take, List.length_cons, List.length_nil]
  push_cast
  omega

/-- Witness for C6 at a concrete input: a fifteen-character plain string
with budget 12 is cut to its first ten characters plus the ellipsis. -/
theorem shorten_tail_truncates_witness :
    shorten (fun _ => none) ("hello world abc".toList) 12 = "hello worl…".toList := by
  have h := (shorten_tail_truncates (fun _ => none) ("hello world abc".toList) 12
    (by decide) (by decide) (by decide) (by decide)).1
  rw [h]
  decide

/-! ### `ContextMenu.load` (src/main.js lines 156-194)

`load(tab, url, isData)` dispatches on the URL's protocol.  Its observable
effect on the target tab is either a direct navigation (public http case),
a synthetic form submission executed in the tab (data case), or a thrown
error; the filesystem, network, preference and guard primitives are
oracles.  The recursion (file/fetch branches re-invoke `load` on a base64
payload) is fuel-indexed; its actual depth is at most two. -/

/-- The observable outcome of one top-level `load` call. -/
inductive LoadEffect
  | navigate (url : List Char)
  | submit (action enctype method charset field value : List Char)
  | error (msg : List Char)
deriving DecidableEq

/-- External collaborators of `load`. -/
structure LoadEnv where
  /-- `isPublicHost`, as awaited by the http branch. -/
  isPublic : List Char → Bool
  /-- `File.join(...decodeURI(url).replace(...).split('/'))` — the platform
  path computation of the file branch. -/
  filePath : List Char → List Char
  /-- `File.exists(path)`. -/
  fileExists : List Char → Bool
  /-- `toBase64(File.read(path, 'b'))`. -/
  fileBase64 : List Char → List Char
  /-- `toBase64(arrayBufferToString((await HttpRequest(url)).response))`;
  `none` is a rejected request. -/
  fetchBase64 : List Char → Option (List Char)
  /-- `Prefs.searchByUrlTarget.replace(/\${ ?url ?}|$/, encodeURIComponent(url))`. -/
  searchUrlFor : List Char → List Char
  /-- `Prefs.searchByBinaryTarget`. -/
  searchByBinaryTarget : List Char

/-- The regex `^https?:\/\//`. -/
def isHttpUrl (u : List Char) : Bool :=
  ("http://".toList).isPrefixOf u || ("https://".toList).isPrefixOf u

/-- The regex `^(?:blob|chrome|https?|resource):`. -/
def isFetchableUrl (u : List Char) : Bool :=
  ("blob:".toList).isPrefixOf u || ("chrome:".toList).isPrefixOf u ||
  ("http:".toList).isPrefixOf u || ("https:".toList).isPrefixOf u ||
  ("resource:".toList).isPrefixOf u

/-- The non-greedy regex replace `url.replace(/^.*?,/, '')`: drop
everything up to and including the first comma; the match fails — leaving
the string unchanged — when there is no comma, or when a newline precedes
the first comma (`.` does not match a newline). -/
def dropThroughComma : List Char → Option (List Char)
  | [] => none
  | c :: rest =>
    if c = ',' then some rest
    else if c = '\n' then none
    else dropThroughComma rest

/-- The payload of the data branch:
`url.replace(/^.*?,/, '').replace(/\+/g, '-').replace(/\//g, '_')`. -/
def dataPayload (url : List Char) : List Char :=
  ((dropThroughComma url).getD url).map fun c =>
    if c = '+' then '-' else if c = '/' then '_' else c

/-- `load`: the http branch navigates when the guard says public and
otherwise falls through to the fetch branch (whose regex also matches
`https?:`); the file branch reads and re-invokes on the base64 payload; the
fetch branch fetches and re-invokes; the data branch submits the one-field
multipart form in the tab; anything else throws UnsupportedProtocol. -/
def load (env : LoadEnv) : Nat → List Char → Bool → LoadEffect
  | fuel, url, isData =>
    if isHttpUrl url && env.isPublic url then
      .navigate (env.searchUrlFor url)
    else if ("file:".toList).isPrefixOf url then
      let path := env.filePath url
      if env.fileExists path = false then
        .error ("Couldn't find the file".toList)
      else
        match fuel with
        | 0 => .error ("out of fuel".toList)
        | f + 1 => load env f (env.fileBase64 path) true
    else if isFetchableUrl url then
      match env.fetchBase64 url with
      | none => .error ("NetworkFailure".toList)
      | some image =>
        match fuel with
        | 0 => .error ("out of fuel".toList)
        | f + 1 => load env f image true
    else if isData || ("data:".toList).isPrefixOf url then
      .submit env.searchByBinaryTarget ("multipart/form-data".toList) ("post".toList)
        ("UTF-8".toList) ("image_content".toList) (dataPayload url)
    else
      .error (("Unsupported protocol ".toList) ++ url.takeWhile (fun c => c ≠ ':'))

/-- One-step unfolding of `load`. -/
theorem load_eq (env : LoadEnv) (fuel : Nat) (url : List Char) (isData : Bool) :
    load env fuel url isData =
      (if isHttpUrl url && env.isPublic url then
        .navigate (env.searchUrlFor url)
      else if ("file:".toList).isPrefixOf url then
        let path := env.filePath url
        if env.fileExists path = false then
          .error ("Couldn't find the file".toList)
        else
          match fuel with
          | 0 => .error ("out of fuel".toList)
          | f + 1 => load env f (env.fileBase64 path) true
      else if isFetchableUrl url then
        match env.fetchBase64 url with
        | none => .error ("NetworkFailure".toList)
        | some image =>
          match fuel with
          | 0 => .error ("out of fuel".toList)
          | f + 1 => load env f image true
      else if isData || ("data:".toList).isPrefixOf url then
        .submit env.searchByBinaryTarget ("multipart/form-data".toList) ("post".toList)
          ("UTF-8".toList) ("image_content".toList) (dataPayload url)
      else
        .error (("Unsupported protocol ".toList) ++ url.takeWhile (fun c => c ≠ ':'))) :=
  load.eq_1 env fuel url isData

/-- A list starting with `data:` starts with `d`, so none of the other
protocol tests can match it. -/
theorem data_url_not_other (rest : List Char) :
    isHttpUrl ('d' :: rest) = false ∧
    ("file:".toList).isPrefixOf ('d' :: rest) = false ∧
    isFetchableUrl ('d' :: rest) = false := by
  refine ⟨?_, ?_, ?_⟩ <;> simp [isHttpUrl, isFetchableUrl, List.isPrefixOf]

/-- Dropping through the comma of a comma- and newline-free header. -/
theorem dropThroughComma_header (post : List Char) :
    ∀ pre : List Char, (∀ c ∈ pre, c ≠ ',' ∧ c ≠ '\n') →
      dropThroughComma (pre ++ ',' :: post) = some post := by
  intro pre
  induction pre with
  | nil => intro _; simp [dropThroughComma]
  | cons c cs ih =>
    intro h
    have hc := h c (by simp)
    simp only [List.cons_append, dropThroughComma, if_neg hc.1, if_neg hc.2]
    exact ih fun d hd => h d (by simp [hd])

/-- C4: for every `data:` URL, `load` performs exactly one form submission:
a `multipart/form-data` POST with `UTF-8` charset to the configured
binary-upload endpoint whose single field `image_content` carries the part
of the URL after the first comma with `+` mapped to `-` and `/` mapped to
`_` (the URL's comma-free header may be arbitrary; a newline-free header is
required for the JS regex `^.*?,` to match). -/
theorem load_data_submits (env : LoadEnv) (fuel : Nat) (isData : Bool)
    (pre post : List Char) (hpre : ∀ c ∈ pre, c ≠ ',' ∧ c ≠ '\n') :
    load env fuel ("data:".toList ++ pre ++ ',' :: post) isData =
      .submit env.searchByBinaryTarget ("multipart/form-data".toList) ("post".toList)
        ("UTF-8".toList) ("image_content".toList)
        (post.map fun c => if c = '+' then '-' else if c = '/' then '_' else c) := by
  have hshape : "data:".toList ++ pre ++ ',' :: post =
      'd' :: ("ata:".toList ++ pre ++ ',' :: post) := by simp
  rw [load_eq, hshape]
  obtain ⟨h1, h2, h3⟩ := data_url_not_other ("ata:".toList ++ pre ++ ',' :: post)
  rw [h1, h2, h3]
  have hdata : ("data:".toList).isPrefixOf
      ('d' :: ("ata:".toList ++ pre ++ ',' :: post)) = true := by
    simp [List.isPrefixOf]
  simp only [Bool.false_and, Bool.false_eq_true, if_false, hdata, Bool.or_true, if_true]
  have hdrop : dropThroughComma ('d' :: ("ata:".toList ++ pre ++ ',' :: post)) =
      some post := by
    have : 'd' :: ("ata:".toList ++ pre ++ ',' :: post) =
        ("data:".toList ++ pre) ++ ',' :: post := by simp
    rw [this]
    refine dropThroughComma_header post _ fun c hc => ?_
    rcases List.mem_append.mp hc with h | h
    · fin_cases h <;> exact ⟨by decide, by decide⟩
    · exact hpre c h
  have hdrop' : dropThroughComma ('d' :: 'a' :: 't' :: 'a' :: ':' :: (pre ++ ',' :: post)) =
      some post := by simpa using hdrop
  simp [dataPayload, hdrop']

/-- Witness for C4: the spec's own example — the submitted value for
`data:image/png;base64,aGVsbG8=` is `aGVsbG8=` (unchanged, having no `+`
or `/`), in a one-field multipart POST to the binary endpoint. -/
theorem load_data_submits_witness :
    load
      { isPublic := fun _ => false, filePath := id, fileExists := fun _ => false,
        fileBase64 := id, fetchBase64 := fun _ => none, searchUrlFor := id,
        searchByBinaryTarget := "https://images.google.com/searchbyimage/upload".toList }
      2 ("data:image/png;base64,aGVsbG8=".toList) false =
    .submit ("https://images.google.com/searchbyimage/upload".toList)
      ("multipart/form-data".toList) ("post".toList) ("UTF-8".toList)
      ("image_content".toList) ("aGVsbG8=".toList) := by
  have h := load_data_submits
    { isPublic := fun _ => false, filePath := id, fileExists := fun _ => false,
      fileBase64 := id, fetchBase64 := fun _ => none, searchUrlFor := id,
      searchByBinaryTarget := "https://images.google.com/searchbyimage/upload".toList }
    2 false ("image/png;base64".toList) ("aGVsbG8=".toList)
    (by decide)
  rw [show ("data:image/png;base64,aGVsbG8=".toList : List Char) =
    "data:".toList ++ "image/png;base64".toList ++ ',' :: "aGVsbG8=".toList from by decide]
  rw [h]
  decide

/-! ### Candidates and the context-menu session (src/main.js lines 31-124, 220-230)

An image candidate as produced by the content script: `url`, `type`,
`title`, `alt`, `id`, an optional `tagName` (only attached for allow-listed
tags), and the `used` flag that the invoke handlers add (absent = `false`).
-/

/-- `ImageCandidate`. -/
structure Candidate where
  url : List Char
  ctype : List Char
  title : List Char
  alt : List Char
  idAttr : List Char
  tagName : Option (List Char)
  used : Bool
deriving DecidableEq

/-- The `labels` table (src/main.js lines 31-37). -/
def labels_init : List Char := "Failed to load".toList

/-- `labels.pending`. -/
def labels_pending : List Char := "Searching …".toList

/-- `labels.none`. -/
def labels_none : List Char := "No image found".toList

/-- `labels.one`. -/
def labels_one : List Char := "Image search for ".toList

/-- `labels.more`. -/
def labels_more : List Char := "Image search for …".toList

/-- The `{':before': …, ':after': …, 'image': '', 'background': …}` lookup
of `imageTitle`; `type` is always one of the four keys. -/
def typeLabel (t : List Char) : List Char :=
  if t = ":before".toList then ":before-image ".toList
  else if t = ":after".toList then ":after-image ".toList
  else if t = "image".toList then []
  else "background ".toList

/-- The truthiness chain `image.title || image.alt || image.id ||
image.tagName || image.url`. -/
def candidateName (image : Candidate) : List Char :=
  if image.title ≠ [] then image.title
  else if image.alt ≠ [] then image.alt
  else if image.idAttr ≠ [] then image.idAttr
  else
    match image.tagName with
    | some t => if t ≠ [] then t else image.url
    | none => image.url

/-- `imageTitle(image, maxLength, title)` (src/main.js lines 220-230); the
platform `decodeURI` is an oracle. -/
def imageTitle (decodeURI : List Char → List Char)
    (parseURL : List Char → Option URLParts)
    (image : Candidate) (maxLength : Int) (title : List Char) : List Char :=
  let t := title ++ typeLabel image.ctype
  let name := shorten parseURL (decodeURI (candidateName image)) (maxLength - t.length)
  if name = [] then t else t ++ '“' :: (name ++ ['”'])

/-- The `<menu>` element state touched by `onShow`: its `disabled`
attribute, its `label`, and the labels of the `menupopup` children. -/
structure MenuElement where
  disabled : Bool
  label : List Char
  children : List (List Char)
deriving DecidableEq

/-- The per-menu mutable state: the element and `this.defaultImage`
(`none` = the property was never assigned, i.e. `undefined`). -/
structure ShowState where
  elem : MenuElement
  defaultImage : Option Candidate
deriving DecidableEq

/-- The state after `new ContextMenu()`: prototype `label`, no children,
`defaultImage` never assigned. -/
def initShowState : ShowState :=
  { elem := { disabled := false, label := labels_init, children := [] },
    defaultImage := none }

/-- `onShow` (src/main.js lines 59-116), given the candidate list the
content script returned: set `disabled`, show the pending label, clear the
children; on an empty list set the "none" label and return early; otherwise
clear `disabled`, record `defaultImage = images[0]`, set the summary label
and append one labelled menuitem per candidate. -/
def onShowState (decodeURI : List Char → List Char)
    (parseURL : List Char → Option URLParts)
    (s : ShowState) (images : List Candidate) : ShowState :=
  let e1 : MenuElement := { disabled := true, label := labels_pending, children := [] }
  match images with
  | [] => { s with elem := { e1 with label := labels_none } }
  | img0 :: rest =>
    { elem :=
        { disabled := false,
          label := if rest = [] then imageTitle decodeURI parseURL img0 30 labels_one
                   else labels_more,
          children := images.map fun i => imageTitle decodeURI parseURL i 70 [] },
      defaultImage := some img0 }

/-- The JS errors relevant here. -/
inductive JsError
  | typeError
deriving DecidableEq

/-- `onInvoke` (src/main.js lines 121-124): `!this.defaultImage.used &&
(this.defaultImage.used = true) && this.search(…)`.  Reading `.used` of an
unassigned `defaultImage` throws a `TypeError`; otherwise the guard makes
the flag true and triggers `search` only on the first transition.  The
`Bool` in the result records whether `search` was called. -/
def onInvokeMenu (s : ShowState) : Except JsError (ShowState × Bool) :=
  match s.defaultImage with
  | none => .error .typeError
  | some img =>
    if img.used then .ok (s, false)
    else .ok ({ s with defaultImage := some { img with used := true } }, true)

/-- The per-menuitem listener of `onShow` (src/main.js lines 109-115):
`!image.used && (image.used = true) && this.search(…)`, with a counter for
the number of `search()` calls. -/
def itemInvoke (image : Candidate) (searchCalls : Nat) : Candidate × Nat :=
  if image.used = false then ({ image with used := true }, searchCalls + 1)
  else (image, searchCalls)

/-- C3: delivering the activation event twice to a candidate whose `used`
flag is `false` (click plus synthetic command for one interaction) calls
`search()` exactly once: the first delivery flips `used` to `true` and
dispatches, the second is a no-op on both the flag and the counter. -/
theorem itemInvoke_at_most_once (image : Candidate) (calls : Nat)
    (h : image.used = false) :
    (itemInvoke image calls).2 = calls + 1 ∧
    (itemInvoke image calls).1.used = true ∧
    itemInvoke (itemInvoke image calls).1 (itemInvoke image calls).2 =
      ((itemInvoke image calls).1, (itemInvoke image calls).2) := by
  simp [itemInvoke, h]

/-- An image candidate used by the witnesses. -/
def sampleCandidate : Candidate :=
  { url := "http://example.com/a.png".toList, ctype := "image".toList,
    title := [], alt := [], idAttr := [], tagName := none, used := false }

/-- Witness for C3: double delivery on a fresh candidate yields exactly one
`search()` call and a single false→true transition of `used`. -/
theorem itemInvoke_at_most_once_witness :
    (itemInvoke sampleCandidate 0).2 = 1 ∧
    (itemInvoke sampleCandidate 0).1.used = true ∧
    itemInvoke (itemInvoke sampleCandidate 0).1 (itemInvoke sampleCandidate 0).2 =
      ((itemInvoke sampleCandidate 0).1, (itemInvoke sampleCandidate 0).2) := by
  simpa using itemInvoke_at_most_once sampleCandidate 0 rfl

/-- Empty sessions never assign `defaultImage`. -/
theorem foldl_empty_sessions (decodeURI : List Char → List Char)
    (parseURL : List Char → Option URLParts) :
    ∀ (sessions : List (List Candidate)) (s : ShowState),
      (∀ imgs ∈ sessions, imgs = []) →
      (sessions.foldl (onShowState decodeURI parseURL) s).defaultImage =
        s.defaultImage := by
  intro sessions
  induction sessions with
  | nil => intro s _; rfl
  | cons a as ih =>
    intro s h
    have ha : a = [] := h a (by simp)
    subst ha
    simp only [List.foldl_cons]
    rw [ih _ fun imgs hm => h imgs (by simp [hm])]
    rfl

/-- C9: invoking the top-level menu item before any menu-open session has
produced a non-empty candidate list evaluates `this.defaultImage.used` with
`defaultImage` still unassigned, so the invocation throws a `TypeError`
rather than being a guarded no-op; an empty-list `onShow` leaves
`defaultImage` untouched, and only a non-empty `onShow` assigns it (to the
first candidate). -/
theorem onInvoke_before_candidates (decodeURI : List Char → List Char)
    (parseURL : List Char → Option URLParts) (sessions : List (List Candidate))
    (hempty : ∀ imgs ∈ sessions, imgs = []) :
    onInvokeMenu (sessions.foldl (onShowState decodeURI parseURL) initShowState) =
      .error .typeError ∧
    (∀ s : ShowState,
      (onShowState decodeURI parseURL s []).defaultImage = s.defaultImage) ∧
    (∀ (s : ShowState) (img : Candidate) (rest : List Candidate),
      (onShowState decodeURI parseURL s (img :: rest)).defaultImage = some img) := by
  refine ⟨?_, fun s => rfl, fun s img rest => rfl⟩
  have h2 : (sessions.foldl (onShowState decodeURI parseURL) initShowState).defaultImage =
      none := by
    rw [foldl_empty_sessions decodeURI parseURL sessions initShowState hempty]
    rfl
  unfold onInvokeMenu
  rw [h2]

/-- Witness for C9: after two menu-open sessions that both found no image,
a direct invocation of the menu item throws. -/
theorem onInvoke_before_candidates_witness :
    onInvokeMenu
      (([[], []] : List (List Candidate)).foldl
        (onShowState id (fun _ => none)) initShowState) =
      .error .typeError := by
  exact (onInvoke_before_candidates id (fun _ => none) [[], []] (by simp)).1

/-- C10: an `onShow` whose resolver returns no candidates sets the label to
the 'No image found' text and returns early: `disabled` — set
unconditionally at entry — is still set, the popup is left cleared, and
`defaultImage` is untouched; `disabled` is removed exactly when at least
one candidate exists. -/
theorem onShow_empty_disables (decodeURI : List Char → List Char)
    (parseURL : List Char → Option URLParts) (s : ShowState) :
    (onShowState decodeURI parseURL s []).elem.disabled = true ∧
    (onShowState decodeURI parseURL s []).elem.label = "No image found".toList ∧
    (onShowState decodeURI parseURL s []).elem.children = [] ∧
    (onShowState decodeURI parseURL s []).defaultImage = s.defaultImage ∧
    (∀ (img : Candidate) (rest : List Candidate),
      (onShowState decodeURI parseURL s (img :: rest)).elem.disabled = false) := by
  exact ⟨rfl, rfl, rfl, rfl, fun img rest => rfl⟩

/-! ### The content-script walk `find` (src/main.js lines 65-101)

The resolver walks the stacked elements under the context-menu point of a
single document: a `Dom` fixes the stacking order of the elements under
that point (topmost first, the document element excluded) and each
element's static data; the mutable inline styles (`visibility` value and
its priority) live in a `Nat → Style` map.  `elementFromPoint` returns the
topmost element whose effective visibility is not `hidden`, falling back to
the document element.  (Nested `IFRAME` documents are not modelled; the
claims under verification concern the hide-and-restore probe of a single
document.) -/

/-- An element's inline `visibility`: `(value, priority)` as read by
`node.style.visibility` / `node.style.getPropertyPriority('visibility')`. -/
abbrev Style := List Char × List Char

/-- Static data of one element. -/
structure ElemInfo where
  tagName : List Char
  /-- `node.currentSrc || node.src`. -/
  src : List Char
  title : List Char
  alt : List Char
  idAttr : List Char
  /-- `getComputedStyle(node).backgroundImage`. -/
  bgImage : List Char
  /-- `getComputedStyle(node, ':before').backgroundImage`. -/
  bgBefore : List Char
  /-- `getComputedStyle(node, ':after').backgroundImage`. -/
  bgAfter : List Char

/-- The document at the probed point. -/
structure Dom where
  root : Nat
  stack : List Nat
  info : Nat → ElemInfo

/-- Whether `c` is one of the quote characters of the class `["']` (39 is
the apostrophe). -/
def isQuote (c : Char) : Bool :=
  c = '"' || c.toNat = 39

/-- The non-greedy capture of `url\(["']?(.*?)["']?\)` after the opening
(and an optional leading quote): the shortest prefix whose continuation
matches `["']?\)`; `.` does not cross a newline. -/
def bgCapture : List Char → Option (List Char)
  | [] => none
  | c :: rest =>
    if c = ')' then some []
    else if isQuote c ∧ rest.head? = some ')' then some []
    else if c = '\n' then none
    else (bgCapture rest).map (c :: ·)

/-- The regex match `background.match(/^url\(["']?(.*?)["']?\)/)`, yielding
the first capture group (`none` = no match, e.g. on `"none"`). -/
def extractBgUrl (background : List Char) : Option (List Char) :=
  if ("url(".toList).isPrefixOf background then
    match background.drop 4 with
    | [] => none
    | c :: rest => if isQuote c then bgCapture rest else bgCapture (c :: rest)
  else none

/-- The allow-list regex
`^(?:article|body|button|footer|header|html|input|label|.*?-.*)$` with the
`i` flag: one of the fixed tag names, or any name containing a hyphen. -/
def safeTag (t : List Char) : Bool :=
  ([ "article".toList, "body".toList, "button".toList, "footer".toList,
     "header".toList, "html".toList, "input".toList, "label".toList
   ].contains (t.map Char.toLower)) || t.contains '-'

/-- The candidates one visited node contributes, in push order: the `IMG`
candidate first, then one background candidate per pseudo-element
(`null`, `:before`, `:after`) whose background yields a non-empty
`url(…)` capture; metadata `tagName` is attached only for allow-listed
tags (background candidates carry no `alt`). -/
def collectNode (e : ElemInfo) : List Candidate :=
  (if e.tagName = "IMG".toList then
    [{ url := e.src, ctype := "image".toList, title := e.title, alt := e.alt,
       idAttr := e.idAttr, tagName := none, used := false }]
   else []) ++
  ([(("background".toList : List Char), e.bgImage),
    ((":before".toList : List Char), e.bgBefore),
    ((":after".toList : List Char), e.bgAfter)].filterMap fun pb =>
      match extractBgUrl pb.2 with
      | some u =>
        if u ≠ [] then
          some { url := u, ctype := pb.1, title := e.title, alt := [],
                 idAttr := e.idAttr,
                 tagName := if safeTag e.tagName then some e.tagName else none,
                 used := false }
        else none
      | none => none)

/-- `document.elementFromPoint(x, y)` at the probed point: the topmost
element of the stack whose effective visibility is not `hidden`, else the
document element. -/
def elementFromPoint (dom : Dom) (styles : Nat → Style) : Nat :=
  (dom.stack.find? fun i => !((styles i).1 == "hidden".toList)).getD dom.root

/-- The walk's mutable state: the inline styles and the `images` array. -/
structure WalkState where
  styles : Nat → Style
  images : List Candidate

/-- One call of `find(node, x, y)` and its recursion, fuel-indexed (the JS
recursion terminates because each level hides one more stacked element):
stop at the document element; collect the node's candidates; save the
inline visibility value and priority, force `visibility:hidden!important`,
re-hit-test, recurse when a different element is returned, then restore
the saved value and priority. -/
def findWalk (dom : Dom) : Nat → Nat → WalkState → WalkState
  | 0, _, st => st
  | fuel + 1, node, st =>
    if node = dom.root then st
    else
      let st1 : WalkState := { st with images := st.images ++ collectNode (dom.info node) }
      let saved := st1.styles node
      let hiddenStyles :=
        Function.update st1.styles node (("hidden".toList : List Char), ("important".toList : List Char))
      let next := elementFromPoint dom hiddenStyles
      let st2 : WalkState := { styles := hiddenStyles, images := st1.images }
      let st3 := if next ≠ node then findWalk dom fuel next st2 else st2
      { st3 with styles := Function.update st3.styles node saved }

/-- The whole content-script body: start at the element under the point
with an empty `images` array. -/
def resolveImagesAt (dom : Dom) (styles0 : Nat → Style) (fuel : Nat) : WalkState :=
  findWalk dom fuel (elementFromPoint dom styles0) { styles := styles0, images := [] }

/-- On the normal (non-exception) path the walk restores every style map
it touches: the final styles equal the initial ones, element by element,
value and priority alike. -/
theorem findWalk_styles (dom : Dom) :
    ∀ (fuel node : Nat) (st : WalkState),
      (findWalk dom fuel node st).styles = st.styles := by
  intro fuel
  induction fuel with
  | zero => intro node st; rfl
  | succ f ih =>
    intro node st
    by_cases hroot : node = dom.root
    · simp [findWalk, hroot]
    · simp only [findWalk, if_neg hroot]
      by_cases hnext :
        elementFromPoint dom
          (Function.update st.styles node
            (("hidden".toList : List Char), ("important".toList : List Char))) ≠ node
      · simp only [if_pos hnext, ih]
        rw [Function.update_idem, Function.update_eq_self]
      · simp only [if_neg hnext]
        rw [Function.update_idem, Function.update_eq_self]

/-- A synthetic DOM: under the probed point, a fully-occluding
background-free `DIV` (element 1) stacked over an `IMG` (element 2) inside
the document element (element 0). -/
def demoDom : Dom :=
  { root := 0, stack := [1, 2],
    info := fun i =>
      if i = 1 then
        { tagName := "DIV".toList, src := [], title := [], alt := [], idAttr := [],
          bgImage := "none".toList, bgBefore := "none".toList, bgAfter := "none".toList }
      else if i = 2 then
        { tagName := "IMG".toList, src := "http://example.com/img.png".toList,
          title := [], alt := [], idAttr := [],
          bgImage := "none".toList, bgBefore := "none".toList, bgAfter := "none".toList }
      else
        { tagName := "HTML".toList, src := [], title := [], alt := [], idAttr := [],
          bgImage := "none".toList, bgBefore := "none".toList, bgAfter := "none".toList } }

/-- Initially no element carries an inline visibility. -/
def demoStyles : Nat → Style := fun _ => ([], [])

/-- C8: every element the resolver hides for probing has its inline
visibility restored to exactly the prior value and priority on the normal
path of the walk (the final style map equals the initial one, for every
walk on every document), and on the synthetic occluded-image document the
walk both yields the `<img>` as the (sole) candidate and leaves the
occluding layer's visibility bit-for-bit unchanged. -/
theorem findWalk_restores_visibility :
    (∀ (dom : Dom) (fuel node : Nat) (st : WalkState),
      (findWalk dom fuel node st).styles = st.styles) ∧
    (resolveImagesAt demoDom demoStyles 3).images.map Candidate.url =
      ["http://example.com/img.png".toList] ∧
    (resolveImagesAt demoDom demoStyles 3).styles = demoStyles := by
  refine ⟨fun dom fuel node st => findWalk_styles dom fuel node st, by decide, ?_⟩
  exact findWalk_styles demoDom 3 _ _

end ImageSearch
